import Mathlib

/-!
Verification development for the Academica backend.

The Requesting concept (request / respond / awaitResponse), the UserAuth
concept, the CourseScheduling concept and the CourseScheduling
synchronization guards are embedded as executable Lean definitions, and the
behavioural properties of the request/response resolution protocol are
proved about them.
-/

namespace Academica

/-- JSON-like values appearing in action inputs and response payloads. -/
inductive Val where
  | str (s : String)
  | bool (b : Bool)
  | nat (n : Nat)
  deriving DecidableEq

/-- A mapping of string keys to values: the shape of request extra fields and
of response payloads (`\x7b key: value, ... \x7d` objects in the source). -/
abbrev Payload := List (String × Val)

/-- State of a JS promise as used by the Requesting concept: pending promises
are created unresolved; `resolve` settles them.  Per JS promise semantics,
calling `resolve` on an already-settled promise is a no-op (the first
resolution wins), which is exactly the mechanism `Requesting.respond` relies
on (part_007 lines 98-106 and 128-140). -/
inductive PromiseState where
  | unresolvedP
  | resolvedP (v : Payload)
  deriving DecidableEq

/-- Resolving a promise: first resolution wins, later resolutions are no-ops
(JS `Promise` semantics used by `pendingRequest.resolve(response)`). -/
def PromiseState.resolveP : PromiseState → Payload → PromiseState
  | .unresolvedP, v => .resolvedP v
  | .resolvedP w, _ => .resolvedP w

/-- Association-list lookup keyed by `Nat` (models both the persisted
`requests` collection keyed by `_id` and the in-memory `pending` Map). -/
def alookup (k : Nat) : List (Nat × β) → Option β
  | [] => none
  | (k', v) :: rest => if k' = k then some v else alookup k rest

/-- Replace the value stored at key `k` (models mutating the entry held in the
`pending` Map; entries at other keys are untouched). -/
def mapUpdate : List (Nat × β) → Nat → β → List (Nat × β)
  | [], _, _ => []
  | (k', v) :: rest, k, w =>
    if k' = k then (k', w) :: mapUpdate rest k w
    else (k', v) :: mapUpdate rest k w

/-- Remove the entry at key `k` (models `this.pending.delete(request)`). -/
def mapDelete : List (Nat × β) → Nat → List (Nat × β)
  | [], _ => []
  | (k', v) :: rest, k =>
    if k' = k then mapDelete rest k
    else (k', v) :: mapDelete rest k

@[simp]
theorem alookup_nil (k : Nat) : alookup k ([] : List (Nat × β)) = none := rfl

@[simp]
theorem alookup_cons (k k' : Nat) (v : β) (rest : List (Nat × β)) :
    alookup k ((k', v) :: rest) = if k' = k then some v else alookup k rest := rfl

theorem alookup_mapUpdate_self (m : List (Nat × β)) (k : Nat) (w : β) :
    alookup k (mapUpdate m k w) = (alookup k m).map (fun _ => w) := by
  induction m with
  | nil => rfl
  | cons p rest ih =>
    obtain ⟨k', v⟩ := p
    by_cases h : k' = k <;> simp [mapUpdate, h, ih]

theorem alookup_mapUpdate_ne (m : List (Nat × β)) (k k' : Nat) (w : β)
    (h : k' ≠ k) : alookup k' (mapUpdate m k w) = alookup k' m := by
  induction m with
  | nil => rfl
  | cons p rest ih =>
    obtain ⟨k'', v⟩ := p
    by_cases h1 : k'' = k
    · subst h1
      simp [mapUpdate, alookup, Ne.symm h, ih]
    · by_cases h2 : k'' = k'
      · subst h2
        simp [mapUpdate, alookup, h1]
      · simp [mapUpdate, alookup, h1, h2, ih]

theorem alookup_mapDelete_self (m : List (Nat × β)) (k : Nat) :
    alookup k (mapDelete m k) = none := by
  induction m with
  | nil => rfl
  | cons p rest ih =>
    obtain ⟨k', v⟩ := p
    by_cases h : k' = k <;> simp [mapDelete, h, ih]

theorem alookup_mapDelete_ne (m : List (Nat × β)) (k k' : Nat)
    (h : k' ≠ k) : alookup k' (mapDelete m k) = alookup k' m := by
  induction m with
  | nil => rfl
  | cons p rest ih =>
    obtain ⟨k'', v⟩ := p
    by_cases h1 : k'' = k
    · subst h1
      simp [mapDelete, alookup, Ne.symm h, ih]
    · by_cases h2 : k'' = k'
      · subst h2
        simp [mapDelete, alookup, h1]
      · simp [mapDelete, alookup, h1, h2, ih]

theorem alookup_append_right_of_none (m : List (Nat × β)) (k : Nat) (v : β)
    (h : alookup k m = none) : alookup k (m ++ [(k, v)]) = some v := by
  induction m with
  | nil => simp [alookup]
  | cons p rest ih =>
    obtain ⟨k', w⟩ := p
    by_cases h1 : k' = k
    · simp [alookup, h1] at h
    · simp [alookup, h1] at h ⊢
      exact ih h

theorem alookup_append_left (m : List (Nat × β)) (k k' : Nat) (v : β)
    (h : k' ≠ k) : alookup k' (m ++ [(k, v)]) = alookup k' m := by
  induction m with
  | nil => simp [alookup, Ne.symm h]
  | cons p rest ih =>
    obtain ⟨k'', w⟩ := p
    by_cases h1 : k'' = k' <;> simp [alookup, h1, ih]

theorem alookup_eq_none_of_lt (m : List (Nat × β)) (k : Nat)
    (h : ∀ p ∈ m, p.1 < k) : alookup k m = none := by
  induction m with
  | nil => rfl
  | cons p rest ih =>
    obtain ⟨k', v⟩ := p
    have hk : k' < k := h (k', v) (List.mem_cons_self _ _)
    have hne : k' ≠ k := Nat.ne_of_lt hk
    simp only [alookup_cons, hne, if_false]
    exact ih (fun q hq => h q (List.mem_cons_of_mem _ hq))

/-- The input of a request: the action path extracted from the URL plus all
other fields of the JSON body (part_007 lines 86, 406-412). -/
structure ReqInput where
  path : String
  fields : Payload
  deriving DecidableEq

/-- Persisted request document (`RequestDoc`, part_007 lines 43-48): the full
input and, once `respond` has run, the response payload. -/
structure RequestDoc where
  input : ReqInput
  response : Option Payload
  deriving DecidableEq

/-- State of the Requesting concept (part_007 lines 64-75):
* `nextFresh` — the id supply.  `freshID()` (part_010 lines 94-96) generates a
  UUID v7; it is modelled as a monotone counter, with the freshness guarantee
  (a generated id has never been used before) expressed by `FreshInv`.
* `requests` — the persisted `Requesting.requests` collection keyed by `_id`.
* `pending` — the in-memory `Map` from request id to the promise of its
  in-flight `PendingRequest`.
* `timers` — the ids whose waiter currently has an armed timeout timer
  (`setTimeout` in `_awaitResponse`, cleared by `clearTimeout` on exit). -/
structure RequestingState where
  nextFresh : Nat
  requests : List (Nat × RequestDoc)
  pending : List (Nat × PromiseState)
  timers : List Nat

/-- Freshness invariant for the modelled `freshID`: every id already present
in the persisted collection or the pending table is strictly below the
counter, so the next generated id is never-before-used. -/
def FreshInv (st : RequestingState) : Prop :=
  (∀ p ∈ st.requests, p.1 < st.nextFresh) ∧ (∀ p ∈ st.pending, p.1 < st.nextFresh)

/-- `Requesting.request` (part_007 lines 85-109): allocate a fresh id, persist
the full input as a `RequestDoc`, install an in-memory pending entry holding a
new unresolved promise, and return the id.  No other state is read or
written. -/
def request (st : RequestingState) (inputs : ReqInput) : Nat × RequestingState :=
  (st.nextFresh,
   { nextFresh := st.nextFresh + 1
     requests := st.requests ++ [(st.nextFresh, { input := inputs, response := none })]
     pending := st.pending ++ [(st.nextFresh, PromiseState.unresolvedP)]
     timers := st.timers })

/-- Update the `response` field of the first persisted document whose `_id`
matches (Mongo `updateOne(\x7b _id: request \x7d, \x7b $set: \x7b response \x7d \x7d)`,
part_007 line 145). -/
def setDocResponse : List (Nat × RequestDoc) → Nat → Payload → List (Nat × RequestDoc)
  | [], _, _ => []
  | (k, d) :: rest, req, r =>
    if k = req then (k, { d with response := some r }) :: rest
    else (k, d) :: setDocResponse rest req r

/-- `Requesting.respond` (part_007 lines 118-151): if a pending entry exists
for the id, resolve its promise (a no-op if it is already resolved — first
resolution wins); otherwise only a warning is logged.  In either case the
persisted document's response is updated (`REQUESTING_SAVE_RESPONSES`
defaults to true, part_007 lines 30-31, 143-147). -/
def respond (st : RequestingState) (req : Nat) (resp : Payload) : RequestingState :=
  let pend :=
    match alookup req st.pending with
    | some p => mapUpdate st.pending req (p.resolveP resp)
    | none => st.pending
  { st with
    pending := pend
    requests := setDocResponse st.requests req resp }

/-- The error message thrown by `_awaitResponse` when the id has no pending
entry (part_007 lines 173-175). -/
def notPendingMsg (req : Nat) : String :=
  s!"Request {req} is not pending or does not exist: it may have timed-out."

/-- The distinguished timeout error message (part_007 line 190). -/
def timeoutMsg (req timeout : Nat) : String :=
  s!"Request {req} timed out after {timeout}ms"

/-- Result of the call-time phase of `_awaitResponse`: either the guard throw
(no pending entry, part_007 lines 165-176) or suspension on the race. -/
inductive AwaitStart where
  | errNotPending (msg : String)
  | suspended
  deriving DecidableEq

/-- Call-time phase of `Requesting._awaitResponse` (part_007 lines 158-195):
looking up the pending entry; if absent, throw the not-pending error without
suspending; otherwise arm the timeout timer and suspend on
`Promise.race([pendingRequest.promise, timeoutPromise])`. -/
def awaitResponseCheck (st : RequestingState) (req : Nat) :
    AwaitStart × RequestingState :=
  match alookup req st.pending with
  | none => (.errNotPending (notPendingMsg req), st)
  | some _ => (.suspended, { st with timers := req :: st.timers })

/-- Terminal outcome observed by the waiter in `_awaitResponse`. -/
inductive AwaitOutcome where
  | ok (response : Payload)
  | timedOut (msg : String)
  | errNotPending (msg : String)
  deriving DecidableEq

/-- Settlement phase of `Requesting._awaitResponse` (part_007 lines 197-214),
evaluated in the state current at the moment the race settles: if the pending
promise has been resolved, the race is won by the response and the payload is
returned; if it is still unresolved, the only way the race settles is the
timer firing, which rejects with the distinguished timeout error.  The
`finally` block then deletes the pending entry and clears the timer in both
cases. -/
def awaitSettle (timeout : Nat) (st : RequestingState) (req : Nat) :
    AwaitOutcome × RequestingState :=
  match alookup req st.pending with
  | some (.resolvedP v) =>
    (.ok v,
     { st with
       pending := mapDelete st.pending req
       timers := st.timers.filter (fun k => k != req) })
  | some .unresolvedP =>
    (.timedOut (timeoutMsg req timeout),
     { st with
       pending := mapDelete st.pending req
       timers := st.timers.filter (fun k => k != req) })
  | none => (.errNotPending (notPendingMsg req), st)

/-- A stored user of the UserAuth concept (`UserDoc`, part_007 lines 710-714),
with the `_id` modelled as a `Nat` (freshID modelled as for requests). -/
structure UserDoc where
  uid : Nat
  username : String
  password : String
  deriving DecidableEq

/-- State of the UserAuth concept: the persisted `users` collection, the
fresh-id counter, and a flag modelling the environment where any MongoDB
operation rejects (the failure mode trapped by the try/catch blocks added to
`register` and `authenticate`, part_007 lines 745-768 and 782-802). -/
structure AuthDb where
  users : List UserDoc
  nextFresh : Nat
  dbFails : Bool
  deriving DecidableEq

/-- Payload returned by a UserAuth action: either `\x7b user: id \x7d` or
`\x7b error: string \x7d` — never a thrown exception. -/
inductive AuthResult where
  | user (id : Nat)
  | error (msg : String)
  deriving DecidableEq

/-- `this.users.findOne(\x7b username \x7d)`: first stored user with the given
username. -/
def findOneUser (db : AuthDb) (username : String) : Option UserDoc :=
  db.users.find? (fun u => u.username == username)

/-- `UserAuth.register` (part_007 lines 739-769): inside try/catch — if the
username is taken return the taken error; otherwise insert a fresh user and
return its id; if the database fails, the catch returns the generic
unavailable error instead of throwing. -/
def register (db : AuthDb) (username password : String) : AuthResult × AuthDb :=
  if db.dbFails then
    (.error "Registration service unavailable. Please try again later.", db)
  else
    match findOneUser db username with
    | some _ =>
      (.error ("Username \x27" ++ username ++ "\x27 is already taken."), db)
    | none =>
      (.user db.nextFresh,
       { db with
         users := db.users ++ [⟨db.nextFresh, username, password⟩]
         nextFresh := db.nextFresh + 1 })

/-- `UserAuth.authenticate` (part_007 lines 779-803): inside try/catch — look
the username up; missing user or wrong password yield the invalid-credentials
error, a match yields the user id; if the database fails, the catch returns
the generic unavailable error instead of throwing. -/
def authenticate (db : AuthDb) (username password : String) : AuthResult :=
  if db.dbFails then
    .error "Authentication service unavailable. Please try again later."
  else
    match findOneUser db username with
    | none => .error "Invalid username or password."
    | some u =>
      if u.password = password then .user u.uid
      else .error "Invalid username or password."

/-- A schedule plan (`Schedule`, part_006 lines 60-65). -/
structure Schedule where
  id : String
  name : String
  sectionIds : List String
  owner : String
  deriving DecidableEq

/-- State of the CourseScheduling concept restricted to what the claims need:
the persisted `schedules` collection (part_006 line 111). -/
structure CSState where
  schedules : List Schedule
  deriving DecidableEq

/-- `findOne(\x7b id: scheduleId \x7d)` on the schedules collection: first
document with the given id. -/
def findSchedule (cs : CSState) (scheduleId : String) : Option Schedule :=
  cs.schedules.find? (fun s => s.id == scheduleId)

/-- `CourseScheduling.getSchedule` (part_006 lines 380-389): returns the
one-element array `[schedule]` if found, `null` otherwise. -/
def getSchedule (cs : CSState) (scheduleId : String) : Option (List Schedule) :=
  match findSchedule cs scheduleId with
  | some s => some [s]
  | none => none

/-- Delete the first document matching the predicate (Mongo `deleteOne`). -/
def deleteFirstSchedule (p : Schedule → Bool) : List Schedule → List Schedule
  | [] => []
  | s :: rest => if p s then rest else s :: deleteFirstSchedule p rest

/-- Update the first document matching the predicate (Mongo `updateOne`). -/
def updateFirstSchedule (p : Schedule → Bool) (g : Schedule → Schedule) :
    List Schedule → List Schedule
  | [] => []
  | s :: rest => if p s then g s :: rest else s :: updateFirstSchedule p g rest

/-- `CourseScheduling.deleteSchedule` (part_006 lines 278-292): find the
schedule by id; throw if absent; throw if the caller is not the owner;
otherwise delete it and return the empty output `\x7b\x7d`. -/
def deleteSchedule (cs : CSState) (userId scheduleId : String) :
    Except String CSState :=
  match findSchedule cs scheduleId with
  | none => .error "Schedule not found"
  | some sched =>
    if sched.owner = userId then
      .ok { schedules := deleteFirstSchedule (fun s => s.id == scheduleId) cs.schedules }
    else
      .error "Unauthorized"

/-- Mongo `$addToSet`: append the element only if it is not already present
(part_006 line 301). -/
def addToSet (l : List String) (x : String) : List String :=
  if x ∈ l then l else l ++ [x]

/-- The `updateOne` filter of `addSection`: id and owner both match. -/
def addSectionMatch (scheduleId userId : String) (s : Schedule) : Bool :=
  s.id == scheduleId && s.owner == userId

/-- `CourseScheduling.addSection` (part_006 lines 295-308): `updateOne` with
filter `\x7b id: scheduleId, owner: userId \x7d` and update
`\x7b $addToSet: \x7b sectionIds: sectionId \x7d \x7d`; if no document
matched, throw. -/
def addSection (cs : CSState) (userId scheduleId sectionId : String) :
    Except String CSState :=
  match cs.schedules.find? (addSectionMatch scheduleId userId) with
  | none => .error "Schedule not found or unauthorized"
  | some _ =>
    .ok { schedules :=
            updateFirstSchedule (addSectionMatch scheduleId userId)
              (fun s => { s with sectionIds := addToSet s.sectionIds sectionId })
              cs.schedules }

/-- Run a sequence of `addSection` calls; a call that throws leaves the
collection unchanged (the failed `updateOne` matched nothing). -/
def runAddSections (cs : CSState) : List (String × String × String) → CSState
  | [] => cs
  | (u, sch, sec) :: rest =>
    match addSection cs u sch sec with
    | .ok cs' => runAddSections cs' rest
    | .error _ => runAddSections cs rest

/-- A session document as observed by the guards (`sessionDoc.userID`,
part_008 lines 84-101). -/
structure SessionDoc where
  userID : Option String

/-- Modelled from the spec: the Session concept (`useSession`, `_getSession`)
is code of this repository that is not under src/ — only its callers are.
The guards observe it solely through the error field of `useSession` and the
document returned by `_getSession`, so it is modelled as that oracle. -/
structure SessionEnv where
  useSessionError : String → Option String
  getSession : String → Option SessionDoc

/-- One candidate frame of a CourseScheduling synchronization rule: the bound
`request` id, the bound `session` value (`none` models an absent/undefined
binding), the `userId` added by a successful guard, and the remaining bound
variables of the particular rule. -/
structure SyncFrame (α : Type) where
  request : Nat
  session : Option String
  userId : Option String
  rest : α
  deriving DecidableEq

/-- Payload of the session-guard denial (part_008 lines 58-61). -/
def unauthorizedSessionPayload : Payload :=
  [("error", Val.str "Unauthorized: valid session required.")]

/-- Payload of the ownership-guard denial (part_008 lines 144-147). -/
def unauthorizedModifyPayload : Payload :=
  [("error", Val.str "Unauthorized: user not permitted to modify this schedule.")]

/-- Payload of the delete/add/remove success responses
(part_008 lines 263-271). -/
def successPayload : Payload :=
  [("success", Val.bool true)]

/-- One iteration of the `validateSession` loop (part_008 lines 47-107): a
falsy session binding (absent or empty — JS `!sess`), a `useSession` error, a
missing session document or a falsy `userID` each make the guard respond
directly with the unauthorized-session payload and drop the frame; otherwise
the frame is kept, augmented with the resolved `userId`. -/
def validateSessionFrame (env : SessionEnv) (st : RequestingState)
    (f : SyncFrame α) : Option (SyncFrame α) × RequestingState :=
  match f.session with
  | none => (none, respond st f.request unauthorizedSessionPayload)
  | some sess =>
    if sess = "" then (none, respond st f.request unauthorizedSessionPayload)
    else
      match env.useSessionError sess with
      | some _ => (none, respond st f.request unauthorizedSessionPayload)
      | none =>
        match env.getSession sess with
        | none => (none, respond st f.request unauthorizedSessionPayload)
        | some doc =>
          match doc.userID with
          | none => (none, respond st f.request unauthorizedSessionPayload)
          | some uid =>
            if uid = "" then (none, respond st f.request unauthorizedSessionPayload)
            else (some { f with userId := some uid }, st)

/-- `validateSession` (part_008 lines 38-111): process each frame in turn,
collecting the surviving (augmented) frames; denials respond immediately and
are excluded from the returned frame list. -/
def validateSession (env : SessionEnv) (st : RequestingState) :
    List (SyncFrame α) → List (SyncFrame α) × RequestingState
  | [] => ([], st)
  | f :: fs =>
    match validateSessionFrame env st f with
    | (none, st') => validateSession env st' fs
    | (some g, st') =>
      let (rest, st'') := validateSession env st' fs
      (g :: rest, st'')

/-- One iteration of the `validateScheduleOwnership` loop (part_008 lines
128-224): the same session checks as `validateSessionFrame` but with the
unauthorized-modify payload, followed by `getSchedule` and the owner
comparison `schedule[0].owner !== uid`; any failure responds directly and
drops the frame.  `getSchedId` reads the rule's bound schedule-id variable
from the frame (the `scheduleIdSymbol` argument of the source helper). -/
def validateOwnershipFrame (env : SessionEnv) (cs : CSState)
    (getSchedId : α → String) (st : RequestingState) (f : SyncFrame α) :
    Option (SyncFrame α) × RequestingState :=
  match f.session with
  | none => (none, respond st f.request unauthorizedModifyPayload)
  | some sess =>
    if sess = "" then (none, respond st f.request unauthorizedModifyPayload)
    else
      match env.useSessionError sess with
      | some _ => (none, respond st f.request unauthorizedModifyPayload)
      | none =>
        match env.getSession sess with
        | none => (none, respond st f.request unauthorizedModifyPayload)
        | some doc =>
          match doc.userID with
          | none => (none, respond st f.request unauthorizedModifyPayload)
          | some uid =>
            if uid = "" then (none, respond st f.request unauthorizedModifyPayload)
            else
              match getSchedule cs (getSchedId f.rest) with
              | none => (none, respond st f.request unauthorizedModifyPayload)
              | some scheds =>
                match scheds.head? with
                | none => (none, respond st f.request unauthorizedModifyPayload)
                | some sched =>
                  if sched.owner = uid then (some { f with userId := some uid }, st)
                  else (none, respond st f.request unauthorizedModifyPayload)

/-- `validateScheduleOwnership` (part_008 lines 116-230): per-frame session
and ownership validation, denials responding directly and dropping the
frame. -/
def validateScheduleOwnership (env : SessionEnv) (cs : CSState)
    (getSchedId : α → String) (st : RequestingState) :
    List (SyncFrame α) → List (SyncFrame α) × RequestingState
  | [] => ([], st)
  | f :: fs =>
    match validateOwnershipFrame env cs getSchedId st f with
    | (none, st') => validateScheduleOwnership env cs getSchedId st' fs
    | (some g, st') =>
      let (rest, st'') := validateScheduleOwnership env cs getSchedId st' fs
      (g :: rest, st'')

/-- The user a session resolves to, if the guards' combined session checks
pass: abbreviates the branch structure shared by `validateSessionFrame` and
`validateOwnershipFrame`. -/
def sessionUser (env : SessionEnv) (s : Option String) : Option String :=
  match s with
  | none => none
  | some sess =>
    if sess = "" then none
    else
      match env.useSessionError sess with
      | some _ => none
      | none =>
        match env.getSession sess with
        | none => none
        | some doc =>
          match doc.userID with
          | none => none
          | some uid => if uid = "" then none else some uid

theorem validateSessionFrame_eq (env : SessionEnv) (st : RequestingState)
    (f : SyncFrame α) :
    validateSessionFrame env st f =
      match sessionUser env f.session with
      | none => (none, respond st f.request unauthorizedSessionPayload)
      | some uid => (some { f with userId := some uid }, st) := by
  obtain ⟨req, fsession, fuid, frest⟩ := f
  unfold validateSessionFrame sessionUser
  rcases fsession with _ | sess
  · rfl
  · by_cases h : sess = ""
    · simp [h]
    · simp only [h, if_false]
      rcases env.useSessionError sess with _ | e
      · rcases env.getSession sess with _ | doc
        · rfl
        · obtain ⟨du⟩ := doc
          rcases du with _ | uid
          · rfl
          · by_cases hu : uid = "" <;> simp [hu]
      · rfl

theorem validateOwnershipFrame_session_eq (env : SessionEnv) (cs : CSState)
    (getSchedId : α → String) (st : RequestingState) (f : SyncFrame α)
    (h : sessionUser env f.session = none) :
    validateOwnershipFrame env cs getSchedId st f =
      (none, respond st f.request unauthorizedModifyPayload) := by
  obtain ⟨req, fsession, fuid, frest⟩ := f
  unfold validateOwnershipFrame
  unfold sessionUser at h
  rcases fsession with _ | sess
  · rfl
  · by_cases hs : sess = ""
    · simp [hs]
    · simp only [hs, if_false] at h ⊢
      rcases hE : env.useSessionError sess with _ | e
      · rw [hE] at h
        rcases hG : env.getSession sess with _ | doc
        · rfl
        · rw [hG] at h
          obtain ⟨du⟩ := doc
          rcases du with _ | uid
          · rfl
          · by_cases hu : uid = ""
            · simp [hu]
            · simp [hu] at h
      · rfl

theorem validateOwnershipFrame_owner_eq (env : SessionEnv) (cs : CSState)
    (getSchedId : α → String) (st : RequestingState) (f : SyncFrame α)
    (uid : String) (h : sessionUser env f.session = some uid) :
    validateOwnershipFrame env cs getSchedId st f =
      (match getSchedule cs (getSchedId f.rest) with
       | none => (none, respond st f.request unauthorizedModifyPayload)
       | some scheds =>
         match scheds.head? with
         | none => (none, respond st f.request unauthorizedModifyPayload)
         | some sched =>
           if sched.owner = uid then (some { f with userId := some uid }, st)
           else (none, respond st f.request unauthorizedModifyPayload)) := by
  obtain ⟨req, fsession, fuid, frest⟩ := f
  unfold validateOwnershipFrame
  unfold sessionUser at h
  rcases fsession with _ | sess
  · exact absurd h (by simp)
  · by_cases hs : sess = ""
    · simp [hs] at h
    · simp only [hs, if_false] at h ⊢
      rcases hE : env.useSessionError sess with _ | e
      · rw [hE] at h
        rcases hG : env.getSession sess with _ | doc
        · rw [hG] at h
          simp at h
        · rw [hG] at h
          obtain ⟨du⟩ := doc
          rcases du with _ | u
          · simp at h
          · by_cases hu : u = ""
            · simp [hu] at h
            · simp [hu] at h
              subst h
              simp [hu]
      · rw [hE] at h
        simp at h

/-- Modelled from the spec: the engine package (@engine — pattern matcher and
dispatcher) is not under src/.  Per §4.4 of the spec, the dispatcher fires
the rule's `then` template once per frame surviving the `where` guard,
substituting the frame's bound variables; for `CreateScheduleRequest`
(part_008 lines 402-423) the template is
`[CourseScheduling.createSchedule, \x7b userId, name \x7d]`, so the
dispatched invocations are exactly one `(userId, name)` pair per surviving
frame.  `rest` of a create-schedule frame is the bound `name`. -/
def createScheduleDispatches (surviving : List (SyncFrame String)) :
    List (Option String × String) :=
  surviving.map (fun f => (f.userId, f.rest))

/-- The `where` guard of `CreateScheduleRequest` (part_008 lines 410-419):
it simply runs `validateSession`. -/
def createScheduleGuard (env : SessionEnv) (st : RequestingState)
    (frames : List (SyncFrame String)) :
    List (SyncFrame String) × RequestingState :=
  validateSession env st frames

/-- Modelled from the spec: end-to-end evaluation of one delete-schedule
frame.  The engine package (@engine) is not under src/; per §4.4 the
dispatcher fires `CourseScheduling.deleteSchedule \x7b userId, scheduleId \x7d`
once per frame surviving `validateScheduleOwnership` (part_008 lines
236-258), records its completion in the action log, and per §4.2/§4.4
chaining the rule `DeleteScheduleResponse` (part_008 lines 263-271) then
matches that completion together with the original request and fires
`Requesting.respond \x7b request, success: true \x7d`.  A `deleteSchedule`
that throws produces no completion record, so the response rule does not
fire for it.  `rest` of a delete frame is the bound `scheduleId`. -/
def runDeleteSchedule (env : SessionEnv) (cs : CSState) (st : RequestingState)
    (f : SyncFrame String) : CSState × RequestingState :=
  let r := validateScheduleOwnership env cs (fun x => x) st [f]
  r.1.foldl
    (fun acc g =>
      match deleteSchedule acc.1 (g.userId.getD "") g.rest with
      | .ok cs' => (cs', respond acc.2 g.request successPayload)
      | .error _ => acc)
    (cs, r.2)

theorem mapUpdate_mapUpdate_self (m : List (Nat × β)) (k : Nat) (v w : β) :
    mapUpdate (mapUpdate m k w) k v = mapUpdate m k v := by
  induction m with
  | nil => rfl
  | cons p rest ih =>
    obtain ⟨k', x⟩ := p
    by_cases h : k' = k <;> simp [mapUpdate, h, ih]

theorem alookup_setDocResponse_ne (m : List (Nat × RequestDoc)) (req k : Nat)
    (r : Payload) (h : k ≠ req) :
    alookup k (setDocResponse m req r) = alookup k m := by
  induction m with
  | nil => rfl
  | cons p rest ih =>
    obtain ⟨k', d⟩ := p
    by_cases h1 : k' = req
    · subst h1
      simp [setDocResponse, alookup, Ne.symm h]
    · by_cases h2 : k' = k
      · subst h2
        simp [setDocResponse, alookup, h1]
      · simp [setDocResponse, alookup, h1, h2, ih]

theorem respond_pending (st : RequestingState) (req : Nat) (resp : Payload)
    (p : PromiseState) (h : alookup req st.pending = some p) :
    (respond st req resp).pending = mapUpdate st.pending req (p.resolveP resp) := by
  unfold respond
  rw [h]

theorem respond_pending_lookup (st : RequestingState) (req : Nat)
    (resp : Payload) (p : PromiseState) (h : alookup req st.pending = some p) :
    alookup req (respond st req resp).pending = some (p.resolveP resp) := by
  rw [respond_pending st req resp p h, alookup_mapUpdate_self, h]
  rfl

theorem respond_pending_lookup_ne (st : RequestingState) (req k : Nat)
    (resp : Payload) (h : k ≠ req) :
    alookup k (respond st req resp).pending = alookup k st.pending := by
  unfold respond
  rcases hp : alookup req st.pending with _ | p
  · rfl
  · exact alookup_mapUpdate_ne st.pending req k _ h

theorem respond_requests (st : RequestingState) (req : Nat) (resp : Payload) :
    (respond st req resp).requests = setDocResponse st.requests req resp := by
  unfold respond
  rcases alookup req st.pending with _ | p <;> rfl

theorem respond_timers (st : RequestingState) (req : Nat) (resp : Payload) :
    (respond st req resp).timers = st.timers := by
  unfold respond
  rcases alookup req st.pending with _ | p <;> rfl

theorem awaitSettle_resolved (t : Nat) (st : RequestingState) (req : Nat)
    (v : Payload) (h : alookup req st.pending = some (PromiseState.resolvedP v)) :
    awaitSettle t st req =
      (AwaitOutcome.ok v,
       { st with
         pending := mapDelete st.pending req
         timers := st.timers.filter (fun k => k != req) }) := by
  unfold awaitSettle
  rw [h]

theorem awaitSettle_unresolved (t : Nat) (st : RequestingState) (req : Nat)
    (h : alookup req st.pending = some PromiseState.unresolvedP) :
    awaitSettle t st req =
      (AwaitOutcome.timedOut (timeoutMsg req t),
       { st with
         pending := mapDelete st.pending req
         timers := st.timers.filter (fun k => k != req) }) := by
  unfold awaitSettle
  rw [h]

theorem not_mem_filter_ne_self (l : List Nat) (k : Nat) :
    k ∉ l.filter (fun x => x != k) := by
  intro hmem
  have := List.of_mem_filter hmem
  simp at this

/-- C1: at most one resolution is ever accepted for a request id.  If
`Requesting.respond` runs twice for the same pending request id, the pending
entry holds exactly the first response payload afterwards (the second
`resolve` call is a no-op on the already-settled promise and leaves the
pending table exactly as the first call left it), and the waiter settling in
`_awaitResponse` observes exactly the first payload. -/
theorem respond_at_most_once (st : RequestingState) (req : Nat)
    (r1 r2 : Payload) (t : Nat)
    (h : alookup req st.pending = some PromiseState.unresolvedP) :
    alookup req (respond (respond st req r1) req r2).pending =
      some (PromiseState.resolvedP r1) ∧
    (respond (respond st req r1) req r2).pending = (respond st req r1).pending ∧
    (awaitSettle t (respond (respond st req r1) req r2) req).1 =
      AwaitOutcome.ok r1 := by
  have h1 : alookup req (respond st req r1).pending =
      some (PromiseState.resolvedP r1) := by
    rw [respond_pending_lookup st req r1 _ h]
    rfl
  have h2 : (respond (respond st req r1) req r2).pending =
      (respond st req r1).pending := by
    rw [respond_pending _ req r2 _ h1,
        respond_pending st req r1 _ h]
    exact mapUpdate_mapUpdate_self _ _ _ _
  refine ⟨?_, h2, ?_⟩
  · rw [respond_pending _ req r2 _ h1, alookup_mapUpdate_self, h1]
    rfl
  · have h3 : alookup req (respond (respond st req r1) req r2).pending =
        some (PromiseState.resolvedP r1) := by
      rw [h2]
      exact h1
    rw [awaitSettle_resolved t _ req r1 h3]

/-- C1 witness: a concrete double-respond run. -/
theorem respond_at_most_once_witness :
    alookup 5 (RequestingState.mk 6 [] [(5, PromiseState.unresolvedP)] []).pending =
      some PromiseState.unresolvedP ∧
    alookup 5 (respond (respond (RequestingState.mk 6 [] [(5, PromiseState.unresolvedP)] [])
        5 [("x", Val.nat 1)]) 5 [("x", Val.nat 2)]).pending =
      some (PromiseState.resolvedP [("x", Val.nat 1)]) :=
  ⟨by rfl,
   (respond_at_most_once (RequestingState.mk 6 [] [(5, PromiseState.unresolvedP)] [])
      5 [("x", Val.nat 1)] [("x", Val.nat 2)] 10000 (by rfl)).1⟩

/-- C2: a pending waiter settles either with exactly the payload its promise
was resolved with, or — precisely when the promise is still unresolved at
settlement — with the distinguished timeout error whose message identifies
the timeout; a timed-out wait never produces an `ok` payload. -/
theorem awaitResponse_settles_ok_or_timeout (t : Nat) (st : RequestingState)
    (req : Nat) (p : PromiseState) (h : alookup req st.pending = some p) :
    ((∃ v, p = PromiseState.resolvedP v ∧
        (awaitSettle t st req).1 = AwaitOutcome.ok v) ∨
     (p = PromiseState.unresolvedP ∧
        (awaitSettle t st req).1 = AwaitOutcome.timedOut (timeoutMsg req t))) ∧
    (∀ msg, (awaitSettle t st req).1 = AwaitOutcome.timedOut msg →
      msg = timeoutMsg req t) ∧
    (∀ v, (awaitSettle t st req).1 = AwaitOutcome.ok v →
      p = PromiseState.resolvedP v) := by
  rcases p with _ | v
  · rw [awaitSettle_unresolved t st req h]
    refine ⟨Or.inr ⟨rfl, rfl⟩, ?_, ?_⟩
    · intro msg hmsg
      simpa using hmsg.symm
    · intro v hv
      simp at hv
  · rw [awaitSettle_resolved t st req v h]
    refine ⟨Or.inl ⟨v, rfl, rfl⟩, ?_, ?_⟩
    · intro msg hmsg
      simp at hmsg
    · intro w hw
      simp at hw
      rw [hw]

/-- C2 witness: a resolved and an unresolved settlement at concrete states. -/
theorem awaitResponse_settles_ok_or_timeout_witness :
    alookup 3 (RequestingState.mk 4 []
        [(3, PromiseState.resolvedP [("a", Val.nat 7)])] []).pending =
      some (PromiseState.resolvedP [("a", Val.nat 7)]) ∧
    ((∃ v, PromiseState.resolvedP [("a", Val.nat 7)] = PromiseState.resolvedP v ∧
        (awaitSettle 10000 (RequestingState.mk 4 []
          [(3, PromiseState.resolvedP [("a", Val.nat 7)])] []) 3).1 =
          AwaitOutcome.ok v) ∨
     (PromiseState.resolvedP [("a", Val.nat 7)] = PromiseState.unresolvedP ∧
        (awaitSettle 10000 (RequestingState.mk 4 []
          [(3, PromiseState.resolvedP [("a", Val.nat 7)])] []) 3).1 =
          AwaitOutcome.timedOut (timeoutMsg 3 10000))) :=
  ⟨by rfl,
   (awaitResponse_settles_ok_or_timeout 10000
      (RequestingState.mk 4 [] [(3, PromiseState.resolvedP [("a", Val.nat 7)])] [])
      3 (PromiseState.resolvedP [("a", Val.nat 7)]) (by rfl)).1⟩

/-- C5: `Requesting.request` always succeeds, allocating an id that is
neither in the persisted collection nor in the pending table (never before
used, by the freshness invariant of the modelled `freshID`), recording the
full input against it, installing an unresolved (Waiting) pending entry for
it, and preserving the freshness invariant. -/
theorem request_always_fresh (st : RequestingState) (inputs : ReqInput)
    (h : FreshInv st) :
    alookup (request st inputs).1 st.requests = none ∧
    alookup (request st inputs).1 st.pending = none ∧
    alookup (request st inputs).1 (request st inputs).2.requests =
      some { input := inputs, response := none } ∧
    alookup (request st inputs).1 (request st inputs).2.pending =
      some PromiseState.unresolvedP ∧
    FreshInv (request st inputs).2 := by
  obtain ⟨hreq, hpend⟩ := h
  have hq : alookup st.nextFresh st.requests = none :=
    alookup_eq_none_of_lt st.requests st.nextFresh hreq
  have hp : alookup st.nextFresh st.pending = none :=
    alookup_eq_none_of_lt st.pending st.nextFresh hpend
  refine ⟨hq, hp, ?_, ?_, ?_, ?_⟩
  · exact alookup_append_right_of_none st.requests st.nextFresh _ hq
  · exact alookup_append_right_of_none st.pending st.nextFresh _ hp
  · intro p hmem
    rcases List.mem_append.mp hmem with hmem | hmem
    · exact Nat.lt_succ_of_lt (hreq p hmem)
    · simp at hmem
      subst hmem
      exact Nat.lt_succ_self _
  · intro p hmem
    rcases List.mem_append.mp hmem with hmem | hmem
    · exact Nat.lt_succ_of_lt (hpend p hmem)
    · simp at hmem
      subst hmem
      exact Nat.lt_succ_self _

/-- C5 witness: a concrete state satisfying the freshness invariant. -/
theorem request_always_fresh_witness :
    alookup (request (RequestingState.mk 2
        [(0, { input := { path := "/p", fields := [] }, response := none })]
        [(1, PromiseState.unresolvedP)] [])
        { path := "/CourseScheduling/createSchedule", fields := [("name", Val.str "Fall")] }).1
      (request (RequestingState.mk 2
        [(0, { input := { path := "/p", fields := [] }, response := none })]
        [(1, PromiseState.unresolvedP)] [])
        { path := "/CourseScheduling/createSchedule", fields := [("name", Val.str "Fall")] }).2.pending =
      some PromiseState.unresolvedP :=
  (request_always_fresh (RequestingState.mk 2
      [(0, { input := { path := "/p", fields := [] }, response := none })]
      [(1, PromiseState.unresolvedP)] [])
      { path := "/CourseScheduling/createSchedule", fields := [("name", Val.str "Fall")] }
      ⟨by decide, by decide⟩).2.2.2.1

/-- C7: once the waiter settles — by response or by timeout — the pending
table entry for the id is removed and its timer is cleared; both terminal
outcomes release the entry, and the outcome is one of exactly those two. -/
theorem awaitResponse_releases_entry (t : Nat) (st : RequestingState)
    (req : Nat) (p : PromiseState) (h : alookup req st.pending = some p) :
    alookup req (awaitSettle t st req).2.pending = none ∧
    req ∉ (awaitSettle t st req).2.timers ∧
    ((∃ v, (awaitSettle t st req).1 = AwaitOutcome.ok v) ∨
     (awaitSettle t st req).1 = AwaitOutcome.timedOut (timeoutMsg req t)) := by
  rcases p with _ | v
  · rw [awaitSettle_unresolved t st req h]
    exact ⟨alookup_mapDelete_self st.pending req,
      not_mem_filter_ne_self st.timers req, Or.inr rfl⟩
  · rw [awaitSettle_resolved t st req v h]
    exact ⟨alookup_mapDelete_self st.pending req,
      not_mem_filter_ne_self st.timers req, Or.inl ⟨v, rfl⟩⟩

/-- C7 witness: a concrete settlement releasing the entry and the timer. -/
theorem awaitResponse_releases_entry_witness :
    alookup 2 (awaitSettle 10000
      (RequestingState.mk 3 [] [(2, PromiseState.unresolvedP)] [2]) 2).2.pending = none ∧
    2 ∉ (awaitSettle 10000
      (RequestingState.mk 3 [] [(2, PromiseState.unresolvedP)] [2]) 2).2.timers :=
  ⟨(awaitResponse_releases_entry 10000
      (RequestingState.mk 3 [] [(2, PromiseState.unresolvedP)] [2]) 2
      PromiseState.unresolvedP (by rfl)).1,
   (awaitResponse_releases_entry 10000
      (RequestingState.mk 3 [] [(2, PromiseState.unresolvedP)] [2]) 2
      PromiseState.unresolvedP (by rfl)).2.1⟩

/-- C8: resolving one request never alters another: responding for id `a`
leaves the pending entry, the persisted document, and the eventual settled
outcome of any other id `b` unchanged. -/
theorem respond_no_interference (st : RequestingState) (a b : Nat)
    (r : Payload) (t : Nat) (hab : a ≠ b) :
    alookup b (respond st a r).pending = alookup b st.pending ∧
    alookup b (respond st a r).requests = alookup b st.requests ∧
    (awaitSettle t (respond st a r) b).1 = (awaitSettle t st b).1 := by
  have hb : b ≠ a := Ne.symm hab
  have hpend : alookup b (respond st a r).pending = alookup b st.pending :=
    respond_pending_lookup_ne st a b r hb
  refine ⟨hpend, ?_, ?_⟩
  · rw [respond_requests]
    exact alookup_setDocResponse_ne st.requests a b r hb
  · unfold awaitSettle
    rw [hpend]
    rcases alookup b st.pending with _ | p
    · rfl
    · rcases p with _ | v <;> rfl

/-- C8 witness: responding for id 1 leaves id 2 untouched. -/
theorem respond_no_interference_witness :
    alookup 2 (respond (RequestingState.mk 3 []
        [(1, PromiseState.unresolvedP), (2, PromiseState.unresolvedP)] [])
        1 [("ok", Val.bool true)]).pending =
      alookup 2 (RequestingState.mk 3 []
        [(1, PromiseState.unresolvedP), (2, PromiseState.unresolvedP)] []).pending :=
  (respond_no_interference (RequestingState.mk 3 []
      [(1, PromiseState.unresolvedP), (2, PromiseState.unresolvedP)] [])
      1 2 [("ok", Val.bool true)] 10000 (by decide)).1

/-- C9: calling `_awaitResponse` for an id with no pending entry throws the
not-pending error instead of suspending, and after a waiter has settled for
an id (which deletes the entry), a second `_awaitResponse` call for that id
throws that same error — so `_awaitResponse` can complete successfully at
most once per id. -/
theorem awaitResponse_not_pending (st : RequestingState) (req : Nat) (t : Nat) :
    (alookup req st.pending = none →
      awaitResponseCheck st req =
        (AwaitStart.errNotPending (notPendingMsg req), st)) ∧
    (∀ p, alookup req st.pending = some p →
      awaitResponseCheck (awaitSettle t st req).2 req =
        (AwaitStart.errNotPending (notPendingMsg req), (awaitSettle t st req).2)) := by
  constructor
  · intro h
    unfold awaitResponseCheck
    rw [h]
  · intro p h
    have hnone : alookup req (awaitSettle t st req).2.pending = none := by
      rcases p with _ | v
      · rw [awaitSettle_unresolved t st req h]
        exact alookup_mapDelete_self st.pending req
      · rw [awaitSettle_resolved t st req v h]
        exact alookup_mapDelete_self st.pending req
    unfold awaitResponseCheck
    rw [hnone]

/-- C9 witness: both error cases at concrete states. -/
theorem awaitResponse_not_pending_witness :
    awaitResponseCheck (RequestingState.mk 1 [] [] []) 0 =
      (AwaitStart.errNotPending (notPendingMsg 0), RequestingState.mk 1 [] [] []) :=
  (awaitResponse_not_pending (RequestingState.mk 1 [] [] []) 0 10000).1 (by rfl)

theorem findOneUser_eq_some (db : AuthDb) (username : String) (u : UserDoc)
    (h : findOneUser db username = some u) :
    u ∈ db.users ∧ u.username = username := by
  unfold findOneUser at h
  exact ⟨List.mem_of_find?_eq_some h, by simpa using List.find?_some h⟩

theorem findOneUser_isSome_of_mem (db : AuthDb) (username : String) (u : UserDoc)
    (hmem : u ∈ db.users) (hname : u.username = username) :
    ∃ w, findOneUser db username = some w := by
  unfold findOneUser
  have hs : (db.users.find? (fun x => x.username == username)).isSome := by
    rw [List.find?_isSome]
    exact ⟨u, hmem, by simp [hname]⟩
  exact Option.isSome_iff_exists.mp hs

theorem findOneUser_eq_none (db : AuthDb) (username : String)
    (h : findOneUser db username = none) :
    ∀ u ∈ db.users, u.username ≠ username := by
  unfold findOneUser at h
  intro u hu
  have hne := List.find?_eq_none.mp h u hu
  simpa using hne

/-- C6: `UserAuth.authenticate` and `UserAuth.register` never throw: every
input yields either a `user` payload or an `error` payload; database
failures yield the generic unavailable-error payloads; and when the database
is reachable, authenticate succeeds exactly when a stored user carries the
given username with a matching password (usernames being unique, as register
enforces) and register succeeds exactly when the username is not taken. -/
theorem auth_never_throws (db : AuthDb) (username password : String) :
    ((∃ id, authenticate db username password = AuthResult.user id) ∨
     (∃ msg, authenticate db username password = AuthResult.error msg)) ∧
    ((∃ id, (register db username password).1 = AuthResult.user id) ∨
     (∃ msg, (register db username password).1 = AuthResult.error msg)) ∧
    (db.dbFails = true →
      authenticate db username password =
        AuthResult.error "Authentication service unavailable. Please try again later." ∧
      (register db username password).1 =
        AuthResult.error "Registration service unavailable. Please try again later.") ∧
    (db.dbFails = false → (db.users.map (fun u => u.username)).Nodup →
      ((∃ id, authenticate db username password = AuthResult.user id) ↔
        ∃ u ∈ db.users, u.username = username ∧ u.password = password)) ∧
    (db.dbFails = false →
      ((∃ id, (register db username password).1 = AuthResult.user id) ↔
        ¬ ∃ u ∈ db.users, u.username = username)) := by
  refine ⟨?_, ?_, ?_, ?_, ?_⟩
  · rcases hA : authenticate db username password with id | msg
    · exact Or.inl ⟨id, rfl⟩
    · exact Or.inr ⟨msg, rfl⟩
  · rcases hR : (register db username password).1 with id | msg
    · exact Or.inl ⟨id, rfl⟩
    · exact Or.inr ⟨msg, rfl⟩
  · intro h
    constructor
    · unfold authenticate
      simp [h]
    · unfold register
      simp [h]
  · intro hdb hnodup
    constructor
    · rintro ⟨id, hid⟩
      unfold authenticate at hid
      rw [hdb] at hid
      simp only [Bool.false_eq_true, if_false] at hid
      rcases hF : findOneUser db username with _ | u
      · rw [hF] at hid
        simp at hid
      · rw [hF] at hid
        by_cases hpw : u.password = password
        · obtain ⟨humem, huname⟩ := findOneUser_eq_some db username u hF
          exact ⟨u, humem, huname, hpw⟩
        · simp [hpw] at hid
    · rintro ⟨u, humem, huname, hupw⟩
      obtain ⟨w, hw⟩ := findOneUser_isSome_of_mem db username u humem huname
      obtain ⟨hwmem, hwname⟩ := findOneUser_eq_some db username w hw
      have hwu : w = u :=
        List.inj_on_of_nodup_map hnodup hwmem humem (by rw [hwname, huname])
      refine ⟨u.uid, ?_⟩
      unfold authenticate
      rw [hdb]
      simp only [Bool.false_eq_true, if_false]
      rw [hw, hwu]
      simp [hupw]
  · intro hdb
    constructor
    · rintro ⟨id, hid⟩
      unfold register at hid
      rw [hdb] at hid
      simp only [Bool.false_eq_true, if_false] at hid
      rcases hF : findOneUser db username with _ | u
      · rintro ⟨u, humem, huname⟩
        exact findOneUser_eq_none db username hF u humem huname
      · rw [hF] at hid
        simp at hid
    · intro hno
      rcases hF : findOneUser db username with _ | u
      · refine ⟨db.nextFresh, ?_⟩
        unfold register
        rw [hdb]
        simp only [Bool.false_eq_true, if_false]
        rw [hF]
      · obtain ⟨humem, huname⟩ := findOneUser_eq_some db username u hF
        exact absurd ⟨u, humem, huname⟩ hno

/-- C6 witness: concrete database where authentication succeeds, checked
against the stored-user characterisation. -/
theorem auth_never_throws_witness :
    ((∃ id, authenticate (AuthDb.mk [UserDoc.mk 0 "alice" "pw"] 1 false)
        "alice" "pw" = AuthResult.user id) ↔
      ∃ u ∈ [UserDoc.mk 0 "alice" "pw"], u.username = "alice" ∧ u.password = "pw") :=
  (auth_never_throws (AuthDb.mk [UserDoc.mk 0 "alice" "pw"] 1 false)
    "alice" "pw").2.2.2.1 rfl (by decide)

theorem addToSet_self_mem (l : List String) (x : String) : x ∈ addToSet l x := by
  unfold addToSet
  by_cases h : x ∈ l <;> simp [h]

theorem addToSet_idem (l : List String) (x : String) :
    addToSet (addToSet l x) x = addToSet l x := by
  have h := addToSet_self_mem l x
  show (if x ∈ addToSet l x then addToSet l x else addToSet l x ++ [x]) = addToSet l x
  rw [if_pos h]

theorem addToSet_nodup (l : List String) (x : String) (h : l.Nodup) :
    (addToSet l x).Nodup := by
  unfold addToSet
  by_cases hx : x ∈ l
  · simpa [hx]
  · simp [hx, List.nodup_append, h]

theorem find?_updateFirstSchedule (p : Schedule → Bool) (g : Schedule → Schedule)
    (l : List Schedule) (hpg : ∀ s, p s = true → p (g s) = true) :
    (updateFirstSchedule p g l).find? p = (l.find? p).map g := by
  induction l with
  | nil => rfl
  | cons s rest ih =>
    by_cases h : p s
    · simp [updateFirstSchedule, h, List.find?_cons_of_pos, hpg s h]
    · simp [updateFirstSchedule, List.find?_cons_of_neg, h, ih]

theorem updateFirstSchedule_idem (p : Schedule → Bool) (g : Schedule → Schedule)
    (hpg : ∀ s, p s = true → p (g s) = true)
    (hgg : ∀ s, g (g s) = g s) (l : List Schedule) :
    updateFirstSchedule p g (updateFirstSchedule p g l) = updateFirstSchedule p g l := by
  induction l with
  | nil => rfl
  | cons s rest ih =>
    by_cases h : p s
    · simp [updateFirstSchedule, h, hpg s h, hgg s]
    · simp [updateFirstSchedule, h, ih]

theorem mem_updateFirstSchedule (p : Schedule → Bool) (g : Schedule → Schedule)
    (l : List Schedule) (s : Schedule) (h : s ∈ updateFirstSchedule p g l) :
    s ∈ l ∨ ∃ t ∈ l, s = g t := by
  induction l with
  | nil => simp [updateFirstSchedule] at h
  | cons a rest ih =>
    by_cases ha : p a
    · simp only [updateFirstSchedule, ha, if_true, List.mem_cons] at h
      rcases h with h | h
      · exact Or.inr ⟨a, List.mem_cons_self _ _, h⟩
      · exact Or.inl (List.mem_cons_of_mem _ h)
    · simp only [updateFirstSchedule] at h
      rw [if_neg ha, List.mem_cons] at h
      rcases h with h | h
      · exact Or.inl (h ▸ List.mem_cons_self _ _)
      · rcases ih h with h' | ⟨t, ht, hs⟩
        · exact Or.inl (List.mem_cons_of_mem _ h')
        · exact Or.inr ⟨t, List.mem_cons_of_mem _ ht, hs⟩

theorem addSection_nodup_preserved (cs : CSState) (u sid sec : String)
    (cs' : CSState) (h : addSection cs u sid sec = Except.ok cs')
    (hn : ∀ s ∈ cs.schedules, s.sectionIds.Nodup) :
    ∀ s ∈ cs'.schedules, s.sectionIds.Nodup := by
  unfold addSection at h
  rcases hF : cs.schedules.find? (addSectionMatch sid u) with _ | s0 <;> rw [hF] at h
  · simp at h
  · injection h with h
    intro s hs
    rw [← h] at hs
    rcases mem_updateFirstSchedule _ _ _ s hs with hmem | ⟨t, ht, hst⟩
    · exact hn s hmem
    · rw [hst]
      exact addToSet_nodup t.sectionIds sec (hn t ht)

/-- C10: `CourseScheduling.addSection` is idempotent (re-adding the same
section id leaves the schedule state unchanged), it never introduces
duplicate section ids across any sequence of calls, and it throws exactly
when no schedule matches the given id and owner. -/
theorem addSection_idempotent_nodup (cs cs' : CSState) (u sid sec : String) :
    (addSection cs u sid sec = Except.ok cs' →
      addSection cs' u sid sec = Except.ok cs') ∧
    ((∀ s ∈ cs.schedules, s.sectionIds.Nodup) →
      ∀ cmds, ∀ s ∈ (runAddSections cs cmds).schedules, s.sectionIds.Nodup) ∧
    ((∃ msg, addSection cs u sid sec = Except.error msg) ↔
      ¬ ∃ s ∈ cs.schedules, s.id = sid ∧ s.owner = u) := by
  refine ⟨?_, ?_, ?_⟩
  · intro h
    unfold addSection at h ⊢
    rcases hF : cs.schedules.find? (addSectionMatch sid u) with _ | s0 <;> rw [hF] at h
    · simp at h
    · injection h with h
      have hpg : ∀ s, addSectionMatch sid u s = true →
          addSectionMatch sid u
            { s with sectionIds := addToSet s.sectionIds sec } = true :=
        fun s hs => hs

      have hfind : cs'.schedules.find? (addSectionMatch sid u) =
          some { s0 with sectionIds := addToSet s0.sectionIds sec } := by
        rw [← h]
        rw [find?_updateFirstSchedule _ _ _ hpg, hF]
        rfl
      rw [hfind]
      have hidem : updateFirstSchedule (addSectionMatch sid u)
          (fun s => { s with sectionIds := addToSet s.sectionIds sec })
          cs'.schedules = cs'.schedules := by
        rw [← h]
        exact updateFirstSchedule_idem _ _ hpg
          (fun s => by simp [addToSet_idem]) cs.schedules
      rw [hidem]
  · intro hn cmds
    induction cmds generalizing cs with
    | nil => exact hn
    | cons cmd rest ih =>
      obtain ⟨cu, csch, csec⟩ := cmd
      unfold runAddSections
      rcases hA : addSection cs cu csch csec with msg | cs2
      · exact ih cs hn
      · exact ih cs2 (addSection_nodup_preserved cs cu csch csec cs2 hA hn)
  · constructor
    · rintro ⟨msg, hmsg⟩ ⟨s, hsmem, hsid, hsown⟩
      unfold addSection at hmsg
      rcases hF : cs.schedules.find? (addSectionMatch sid u) with _ | s0
      · have hnm := List.find?_eq_none.mp hF s hsmem
        simp [addSectionMatch, hsid, hsown] at hnm
      · rw [hF] at hmsg
        simp at hmsg
    · intro hno
      rcases hF : cs.schedules.find? (addSectionMatch sid u) with _ | s0
      · refine ⟨"Schedule not found or unauthorized", ?_⟩
        unfold addSection
        rw [hF]
      · have hs0 := List.find?_some hF
        have hmem := List.mem_of_find?_eq_some hF
        simp [addSectionMatch] at hs0
        exact absurd ⟨s0, hmem, hs0.1, hs0.2⟩ hno

/-- C10 witness: adding the same section twice to a concrete schedule leaves
the state of the first addition unchanged. -/
theorem addSection_idempotent_nodup_witness :
    addSection (CSState.mk [Schedule.mk "S1" "Main" [] "U1"]) "U1" "S1" "SEC-1" =
      Except.ok (CSState.mk [Schedule.mk "S1" "Main" ["SEC-1"] "U1"]) ∧
    addSection (CSState.mk [Schedule.mk "S1" "Main" ["SEC-1"] "U1"]) "U1" "S1" "SEC-1" =
      Except.ok (CSState.mk [Schedule.mk "S1" "Main" ["SEC-1"] "U1"]) :=
  ⟨by rfl,
   (addSection_idempotent_nodup (CSState.mk [Schedule.mk "S1" "Main" [] "U1"])
      (CSState.mk [Schedule.mk "S1" "Main" ["SEC-1"] "U1"])
      "U1" "S1" "SEC-1").1 (by rfl)⟩

/-- C3: a create-schedule request frame whose session binding is absent or
fails validation is dropped by the guard, which itself responds to the
original request with the unauthorized-session error payload; the waiter
therefore settles with that error payload instead of timing out, and
`CourseScheduling.createSchedule` is dispatched for no frame. -/
theorem createSchedule_unauthorized (env : SessionEnv) (st : RequestingState)
    (f : SyncFrame String) (t : Nat)
    (hsess : sessionUser env f.session = none)
    (hpend : alookup f.request st.pending = some PromiseState.unresolvedP) :
    createScheduleGuard env st [f] =
      ([], respond st f.request unauthorizedSessionPayload) ∧
    (awaitSettle t (createScheduleGuard env st [f]).2 f.request).1 =
      AwaitOutcome.ok unauthorizedSessionPayload ∧
    createScheduleDispatches (createScheduleGuard env st [f]).1 = [] := by
  have hg : createScheduleGuard env st [f] =
      ([], respond st f.request unauthorizedSessionPayload) := by
    unfold createScheduleGuard validateSession
    rw [validateSessionFrame_eq, hsess]
    rfl
  refine ⟨hg, ?_, ?_⟩
  · rw [hg]
    have hres : alookup f.request
        (respond st f.request unauthorizedSessionPayload).pending =
        some (PromiseState.resolvedP unauthorizedSessionPayload) := by
      rw [respond_pending_lookup st f.request _ _ hpend]
      rfl
    rw [awaitSettle_resolved t _ _ _ hres]
  · rw [hg]
    rfl

/-- C3 witness: a concrete sessionless create-schedule request settling with
the unauthorized payload. -/
theorem createSchedule_unauthorized_witness :
    (awaitSettle 10000
      (createScheduleGuard (SessionEnv.mk (fun _ => none) (fun _ => none))
        (RequestingState.mk 8 [] [(7, PromiseState.unresolvedP)] [])
        [SyncFrame.mk 7 none none "Fall"]).2 7).1 =
      AwaitOutcome.ok unauthorizedSessionPayload :=
  (createSchedule_unauthorized (SessionEnv.mk (fun _ => none) (fun _ => none))
    (RequestingState.mk 8 [] [(7, PromiseState.unresolvedP)] [])
    (SyncFrame.mk 7 none none "Fall") 10000 (by rfl) (by rfl)).2.1

/-- C4: for a delete-schedule request whose session resolves to the recorded
owner of the schedule, the ownership guard keeps the frame augmented with the
resolved userId, the dispatched `deleteSchedule` succeeds, and the chained
response rule responds `success: true`, which is what the waiter settles
with; if instead the session is missing/invalid or the owner differs, the
guard responds the unauthorized-modify error payload and drops the frame. -/
theorem deleteSchedule_ownership (env : SessionEnv) (cs : CSState)
    (st : RequestingState) (f : SyncFrame String) (uid : String)
    (sched : Schedule) (t : Nat) :
    (sessionUser env f.session = some uid →
     findSchedule cs f.rest = some sched →
     sched.owner = uid →
     alookup f.request st.pending = some PromiseState.unresolvedP →
     validateScheduleOwnership env cs (fun x => x) st [f] =
        ([{ f with userId := some uid }], st) ∧
     deleteSchedule cs uid f.rest =
        Except.ok { schedules :=
          deleteFirstSchedule (fun s => s.id == f.rest) cs.schedules } ∧
     (awaitSettle t (runDeleteSchedule env cs st f).2 f.request).1 =
        AwaitOutcome.ok successPayload) ∧
    (sessionUser env f.session = none →
     validateScheduleOwnership env cs (fun x => x) st [f] =
        ([], respond st f.request unauthorizedModifyPayload)) ∧
    (sessionUser env f.session = some uid →
     findSchedule cs f.rest = some sched →
     sched.owner ≠ uid →
     validateScheduleOwnership env cs (fun x => x) st [f] =
        ([], respond st f.request unauthorizedModifyPayload)) := by
  refine ⟨?_, ?_, ?_⟩
  · intro hu hsched hown hpend
    have hof : validateOwnershipFrame env cs (fun x => x) st f =
        (some { f with userId := some uid }, st) := by
      rw [validateOwnershipFrame_owner_eq env cs (fun x => x) st f uid hu]
      unfold getSchedule
      rw [hsched]
      simp [hown]
    have hguard : validateScheduleOwnership env cs (fun x => x) st [f] =
        ([{ f with userId := some uid }], st) := by
      unfold validateScheduleOwnership
      rw [hof]
      rfl
    have hdel : deleteSchedule cs uid f.rest =
        Except.ok { schedules :=
          deleteFirstSchedule (fun s => s.id == f.rest) cs.schedules } := by
      unfold deleteSchedule
      rw [hsched]
      simp [hown]
    refine ⟨hguard, hdel, ?_⟩
    have hrun : (runDeleteSchedule env cs st f).2 =
        respond st f.request successPayload := by
      unfold runDeleteSchedule
      rw [hguard]
      simp only [List.foldl]
      rw [show (Option.getD (some uid) "") = uid from rfl]
      rw [hdel]
    rw [hrun]
    have hres : alookup f.request
        (respond st f.request successPayload).pending =
        some (PromiseState.resolvedP successPayload) := by
      rw [respond_pending_lookup st f.request _ _ hpend]
      rfl
    rw [awaitSettle_resolved t _ _ _ hres]
  · intro hs
    unfold validateScheduleOwnership
    rw [validateOwnershipFrame_session_eq env cs (fun x => x) st f hs]
    rfl
  · intro hu hsched hown
    have hof : validateOwnershipFrame env cs (fun x => x) st f =
        (none, respond st f.request unauthorizedModifyPayload) := by
      rw [validateOwnershipFrame_owner_eq env cs (fun x => x) st f uid hu]
      unfold getSchedule
      rw [hsched]
      simp [hown]
    unfold validateScheduleOwnership
    rw [hof]
    rfl

/-- C4 witness: a concrete owner-matching delete request settling with
`success: true`, and a sessionless one denied by the guard. -/
theorem deleteSchedule_ownership_witness :
    (awaitSettle 10000
      (runDeleteSchedule
        (SessionEnv.mk (fun _ => none)
          (fun s => if s = "tok1" then some (SessionDoc.mk (some "U1")) else none))
        (CSState.mk [Schedule.mk "S1" "Plan" [] "U1"])
        (RequestingState.mk 10 [] [(9, PromiseState.unresolvedP)] [])
        (SyncFrame.mk 9 (some "tok1") none "S1")).2 9).1 =
      AwaitOutcome.ok successPayload :=
  ((deleteSchedule_ownership
      (SessionEnv.mk (fun _ => none)
        (fun s => if s = "tok1" then some (SessionDoc.mk (some "U1")) else none))
      (CSState.mk [Schedule.mk "S1" "Plan" [] "U1"])
      (RequestingState.mk 10 [] [(9, PromiseState.unresolvedP)] [])
      (SyncFrame.mk 9 (some "tok1") none "S1") "U1"
      (Schedule.mk "S1" "Plan" [] "U1") 10000).1
    (by rfl) (by rfl) (by rfl) (by rfl)).2.2

end Academica
